import Mathlib

/-!
Shallow embedding of the debt-tab ledger of this repository
(`src/modules/debts/debts.service.ts` together with the Prisma schema).

Modelling conventions:
* monetary `DOUBLE PRECISION` values are rationals (`ℚ`);
* `TIMESTAMP` business dates are integers; database-generated creation
  timestamps (`createdAt`, `openedAt`, defaulting to `CURRENT_TIMESTAMP`)
  are drawn from a monotone sequence counter `seq` of the store;
* row ids are drawn from per-table counters;
* the global `unitPrice` setting is stored already parsed: `some v` when the
  setting row exists and `parseFloat` of its value is a finite number `v`,
  `none` when the row is missing or its value is empty or non-numeric;
* `AppError(status, message)` mirrors the `AppError` class; the spec's
  taxonomy maps `NotFoundError` to status 404, `ValidationError` to 400 and
  `ConfigurationError` to 500;
* `prisma.$transaction` is all-or-nothing: an operation that throws inside
  the transaction returns only the error and the caller keeps the previous
  store, which models the documented rollback semantics.
-/

namespace DebtLedger

inductive DebtStatus where
  | OPEN
  | CLOSED
deriving DecidableEq

inductive DebtTransactionType where
  | CHARGE
  | PAYMENT
  | ADJUSTMENT
deriving DecidableEq

structure Customer where
  id : String
  active : Bool
  customUnitPrice : Option ℚ
deriving DecidableEq

structure DebtTab where
  id : Nat
  customerId : String
  status : DebtStatus
  totalBalance : ℚ
  openedAt : Nat
  closedAt : Option Int
deriving DecidableEq

structure DebtTransaction where
  id : Nat
  debtTabId : Nat
  transactionType : DebtTransactionType
  containers : Option ℚ
  unitPrice : Option ℚ
  amount : ℚ
  balanceAfter : ℚ
  notes : Option String
  adjustmentReason : Option String
  transactionDate : Int
  enteredById : String
  createdAt : Nat
deriving DecidableEq

structure Store where
  customers : List Customer
  unitPriceSetting : Option ℚ
  tabs : List DebtTab
  transactions : List DebtTransaction
  nextTabId : Nat
  nextTrxId : Nat
  seq : Nat
deriving DecidableEq

structure AppError where
  status : Nat
  message : String
deriving DecidableEq

def NotFoundError (msg : String) : AppError := ⟨404, msg⟩

def ValidationError (msg : String) : AppError := ⟨400, msg⟩

def ConfigurationError (msg : String) : AppError := ⟨500, msg⟩

/-- `const EPSILON = 0.005` -/
def EPSILON : ℚ := 5 / 1000

structure ChargeInput where
  customerId : String
  containers : ℚ
  transactionDate : Int
  notes : Option String

structure PaymentInput where
  customerId : String
  amount : ℚ
  transactionDate : Int
  notes : Option String

structure AdjustmentInput where
  customerId : String
  amount : ℚ
  reason : String
  transactionDate : Int
  notes : Option String

structure OpResult where
  transaction : DebtTransaction
  tab : DebtTab
deriving DecidableEq

structure MarkPaidResult where
  tab : DebtTab
  transaction : Option DebtTransaction
deriving DecidableEq

/-- The global-price fallback inside `getUnitPrice`: the parsed setting must
be a finite number strictly greater than zero. -/
def globalUnitPrice (s : Store) : Except AppError ℚ :=
  match s.unitPriceSetting with
  | none => .error (ConfigurationError "Unit price setting is missing or invalid")
  | some val =>
      if val ≤ 0 then .error (ConfigurationError "Unit price setting is missing or invalid")
      else .ok val

/-- `DebtsService.getUnitPrice` -/
def getUnitPrice (s : Store) (customerId : String) : Except AppError ℚ :=
  match s.customers.find? (fun c => c.id == customerId) with
  | none => .error (NotFoundError "Customer not found")
  | some customer =>
      if !customer.active then
        .error (ValidationError "Cannot record debt for inactive customer")
      else
        match customer.customUnitPrice with
        | some p => if 0 < p then .ok p else globalUnitPrice s
        | none => globalUnitPrice s

def findOpenTab (s : Store) (customerId : String) : Option DebtTab :=
  s.tabs.find? (fun t => t.customerId == customerId && t.status == DebtStatus.OPEN)

/-- The row created by `tx.debtTab.create` when no OPEN tab exists. -/
def freshTab (s : Store) (customerId : String) : DebtTab :=
  { id := s.nextTabId, customerId := customerId, status := .OPEN,
    totalBalance := 0, openedAt := s.seq, closedAt := none }

def withFreshTab (s : Store) (customerId : String) : Store :=
  { s with tabs := s.tabs ++ [freshTab s customerId],
           nextTabId := s.nextTabId + 1, seq := s.seq + 1 }

/-- `DebtsService.findOrCreateOpenTab` -/
def findOrCreateOpenTab (s : Store) (customerId : String) : Store × DebtTab :=
  match findOpenTab s customerId with
  | some tab => (s, tab)
  | none => (withFreshTab s customerId, freshTab s customerId)

def appendTransaction (s : Store) (t : DebtTransaction) : Store :=
  { s with transactions := s.transactions ++ [t], nextTrxId := s.nextTrxId + 1, seq := s.seq + 1 }

/-- `tx.debtTab.update({ where: { id: tabId }, data: ... })`: apply the field
updates `f` to the rows with the given id. -/
def updateTab (s : Store) (tabId : Nat) (f : DebtTab → DebtTab) : Store :=
  { s with tabs := s.tabs.map (fun t => if t.id = tabId then f t else t) }

/-- `DebtsService.createCharge` -/
def createCharge (s : Store) (input : ChargeInput) (userId : String) :
    Except AppError (Store × OpResult) :=
  if input.containers ≤ 0 then
    .error (ValidationError "Containers must be greater than 0")
  else
    match getUnitPrice s input.customerId with
    | .error e => .error e
    | .ok unitPrice =>
        let amount := input.containers * unitPrice
        let p := findOrCreateOpenTab s input.customerId
        let s1 := p.1
        let tab := p.2
        let newBalance := tab.totalBalance + amount
        let trx : DebtTransaction :=
          { id := s1.nextTrxId, debtTabId := tab.id, transactionType := .CHARGE,
            containers := some input.containers, unitPrice := some unitPrice,
            amount := amount, balanceAfter := newBalance, notes := input.notes,
            adjustmentReason := none, transactionDate := input.transactionDate,
            enteredById := userId, createdAt := s1.seq }
        let s2 := updateTab (appendTransaction s1 trx) tab.id
          (fun t => { t with totalBalance := newBalance })
        .ok (s2, { transaction := trx, tab := { tab with totalBalance := newBalance } })

/-- `DebtsService.createPayment` -/
def createPayment (s : Store) (input : PaymentInput) (userId : String) :
    Except AppError (Store × OpResult) :=
  if input.amount ≤ 0 then
    .error (ValidationError "Payment amount must be greater than 0")
  else
    match findOpenTab s input.customerId with
    | none => .error (NotFoundError "No open debt tab for customer")
    | some tab =>
        if EPSILON < input.amount - tab.totalBalance then
          .error (ValidationError "Overpayment not allowed")
        else
          let newBalance := max 0 (tab.totalBalance - input.amount)
          let trx : DebtTransaction :=
            { id := s.nextTrxId, debtTabId := tab.id, transactionType := .PAYMENT,
              containers := none, unitPrice := none,
              amount := input.amount, balanceAfter := newBalance, notes := input.notes,
              adjustmentReason := none, transactionDate := input.transactionDate,
              enteredById := userId, createdAt := s.seq }
          let upd : DebtTab → DebtTab := fun t =>
            if |newBalance| < EPSILON then
              { t with totalBalance := 0, status := .CLOSED,
                       closedAt := some input.transactionDate }
            else
              { t with totalBalance := newBalance }
          let s2 := updateTab (appendTransaction s trx) tab.id upd
          .ok (s2, { transaction := trx, tab := upd tab })

/-- Blank-string test of `!reason || !reason.trim()`: the string is empty or
trims to empty, i.e. every character is whitespace. -/
def isBlank (r : String) : Bool := r.toList.all Char.isWhitespace

/-- `DebtsService.createAdjustment` -/
def createAdjustment (s : Store) (input : AdjustmentInput) (userId : String) :
    Except AppError (Store × OpResult) :=
  if isBlank input.reason then
    .error (ValidationError "Adjustment reason is required")
  else if |input.amount| < EPSILON then
    .error (ValidationError "Adjustment amount cannot be zero")
  else
    match findOpenTab s input.customerId with
    | none => .error (NotFoundError "No open debt tab for customer")
    | some tab =>
        let newBalance := tab.totalBalance + input.amount
        if newBalance < -EPSILON then
          .error (ValidationError "Adjustment would result in negative balance")
        else
          let trx : DebtTransaction :=
            { id := s.nextTrxId, debtTabId := tab.id, transactionType := .ADJUSTMENT,
              containers := none, unitPrice := none,
              amount := input.amount, balanceAfter := max 0 newBalance, notes := input.notes,
              adjustmentReason := some input.reason, transactionDate := input.transactionDate,
              enteredById := userId, createdAt := s.seq }
          let s2 := updateTab (appendTransaction s trx) tab.id
            (fun t => { t with totalBalance := max 0 newBalance })
          .ok (s2, { transaction := trx, tab := { tab with totalBalance := max 0 newBalance } })

/-- `DebtsService.markPaid` -/
def markPaid (s : Store) (customerId : String) (transactionDate : Int) (userId : String)
    (finalPayment : Option ℚ) : Except AppError (Store × MarkPaidResult) :=
  match findOpenTab s customerId with
  | none => .error (NotFoundError "No open debt tab for customer")
  | some tab =>
      let step : Except AppError (Store × ℚ × Option DebtTransaction) :=
        match finalPayment with
        | some fp =>
            if 0 < fp then
              if EPSILON < fp - tab.totalBalance then
                .error (ValidationError "Final payment exceeds remaining balance")
              else
                let newBalance := max 0 (tab.totalBalance - fp)
                let trx : DebtTransaction :=
                  { id := s.nextTrxId, debtTabId := tab.id, transactionType := .PAYMENT,
                    containers := none, unitPrice := none, amount := fp,
                    balanceAfter := newBalance, notes := none, adjustmentReason := none,
                    transactionDate := transactionDate, enteredById := userId,
                    createdAt := s.seq }
                .ok (appendTransaction s trx, newBalance, some trx)
            else .ok (s, tab.totalBalance, none)
        | none => .ok (s, tab.totalBalance, none)
      match step with
      | .error e => .error e
      | .ok (s1, currentBalance, paymentTrx) =>
          if EPSILON < currentBalance then
            .error (ValidationError "Cannot close tab with non-zero balance")
          else
            let upd : DebtTab → DebtTab := fun t =>
              { t with status := .CLOSED, closedAt := some transactionDate, totalBalance := 0 }
            .ok (updateTab s1 tab.id upd, { tab := upd tab, transaction := paymentTrx })

/-- `DebtsService.getCustomerDebtHistory`: all tabs of the customer ordered by
`openedAt` descending, and all their transactions ordered by `transactionDate`
descending (the only `orderBy` key the query requests). -/
def getCustomerDebtHistory (s : Store) (customerId : String) :
    List DebtTab × List DebtTransaction :=
  let tabs := (s.tabs.filter (fun t => t.customerId == customerId)).mergeSort
    (fun a b => decide (b.openedAt ≤ a.openedAt))
  let tabIds := tabs.map (fun t => t.id)
  let transactions := (s.transactions.filter (fun t => tabIds.contains t.debtTabId)).mergeSort
    (fun a b => decide (b.transactionDate ≤ a.transactionDate))
  (tabs, transactions)

/-- The ledger state observed by the caller after an operation: on success the
new store, on a thrown error the previous store (transactional rollback). -/
def stateAfter {α : Type} (r : Except AppError (Store × α)) (s : Store) : Store :=
  match r with
  | .error _ => s
  | .ok (s1, _) => s1

/-- A store with no tabs and no transactions yet (customers and settings are
managed by other modules and are arbitrary). -/
def initStore (customers : List Customer) (price : Option ℚ) : Store :=
  { customers := customers, unitPriceSetting := price, tabs := [],
    transactions := [], nextTabId := 0, nextTrxId := 0, seq := 0 }

/-- States reachable from an empty store by any sequence of the four ledger
operations (failed operations keep the previous store). -/
inductive Reachable : Store → Prop where
  | init (customers : List Customer) (price : Option ℚ) :
      Reachable (initStore customers price)
  | charge (s : Store) (input : ChargeInput) (userId : String) :
      Reachable s → Reachable (stateAfter (createCharge s input userId) s)
  | payment (s : Store) (input : PaymentInput) (userId : String) :
      Reachable s → Reachable (stateAfter (createPayment s input userId) s)
  | adjustment (s : Store) (input : AdjustmentInput) (userId : String) :
      Reachable s → Reachable (stateAfter (createAdjustment s input userId) s)
  | markPaidStep (s : Store) (customerId : String) (transactionDate : Int)
      (userId : String) (finalPayment : Option ℚ) :
      Reachable s → Reachable (stateAfter (markPaid s customerId transactionDate userId finalPayment) s)

/-- The ordered transaction log of one tab. -/
def txsOf (s : Store) (tabId : Nat) : List DebtTransaction :=
  s.transactions.filter (fun t => t.debtTabId == tabId)

/-- Effect of one logged transaction on a running balance, by declared type
and amount (the replay rule of the spec's round-trip property). -/
def replayStep (b : ℚ) (t : DebtTransaction) : ℚ :=
  match t.transactionType with
  | .CHARGE => b + t.amount
  | .PAYMENT => max 0 (b - t.amount)
  | .ADJUSTMENT => max 0 (b + t.amount)

/-- Checks that each logged `balanceAfter` is exactly the replay of the
previous one. -/
def replayOK : ℚ → List DebtTransaction → Bool
  | _, [] => true
  | b, t :: ts => (t.balanceAfter == replayStep b t) && replayOK t.balanceAfter ts

/-- The running balances produced by replaying a log from a starting balance. -/
def replayBalances : ℚ → List DebtTransaction → List ℚ
  | _, [] => []
  | b, t :: ts => replayStep b t :: replayBalances (replayStep b t) ts

/-- `balanceAfter` of the most recent transaction, or 0 if none. -/
def lastBalanceAfter (ts : List DebtTransaction) : ℚ :=
  match ts.getLast? with
  | none => 0
  | some t => t.balanceAfter

/-- The balance a replay of the log ends at, starting from `b`. -/
def runBalance : ℚ → List DebtTransaction → ℚ
  | b, [] => b
  | _, t :: ts => runBalance t.balanceAfter ts

/-! ### Basic lemmas about the embedded operations -/

theorem findOpenTab_eq_some {s : Store} {cid : String} {tab : DebtTab}
    (h : findOpenTab s cid = some tab) :
    tab ∈ s.tabs ∧ tab.customerId = cid ∧ tab.status = .OPEN := by
  have hmem := List.mem_of_find?_eq_some h
  have hp := List.find?_some h
  simp only [Bool.and_eq_true, beq_iff_eq] at hp
  exact ⟨hmem, hp.1, hp.2⟩

theorem txsOf_appendTransaction (s : Store) (t : DebtTransaction) (tabId : Nat) :
    txsOf (appendTransaction s t) tabId =
      txsOf s tabId ++ (if t.debtTabId = tabId then [t] else []) := by
  by_cases h : t.debtTabId = tabId <;>
    simp [txsOf, appendTransaction, List.filter_append, List.filter_cons, h]

theorem txsOf_updateTab (s : Store) (tabId : Nat) (f : DebtTab → DebtTab) (i : Nat) :
    txsOf (updateTab s tabId f) i = txsOf s i := rfl

theorem lastBalanceAfter_concat (ts : List DebtTransaction) (t : DebtTransaction) :
    lastBalanceAfter (ts ++ [t]) = t.balanceAfter := by
  simp [lastBalanceAfter, List.getLast?_concat]

theorem lastBalanceAfter_eq_runBalance (ts : List DebtTransaction) :
    lastBalanceAfter ts = runBalance 0 ts := by
  induction ts with
  | nil => rfl
  | cons u us ih =>
    cases us with
    | nil => simp [lastBalanceAfter, runBalance]
    | cons v vs =>
      have h2 : lastBalanceAfter (v :: vs) = runBalance v.balanceAfter vs := by
        simpa [runBalance] using ih
      simp only [runBalance]
      rw [← h2]
      simp [lastBalanceAfter]

theorem lastBalanceAfter_nonneg {ts : List DebtTransaction}
    (h : ∀ t ∈ ts, 0 ≤ t.balanceAfter) : 0 ≤ lastBalanceAfter ts := by
  unfold lastBalanceAfter
  cases hl : ts.getLast? with
  | none => simp
  | some t =>
    simp only
    obtain ⟨hne, ht⟩ := List.mem_getLast?_eq_getLast (l := ts) (x := t) (by simp [hl])
    have hmem := h _ (List.getLast_mem hne)
    rw [← ht] at hmem
    exact hmem

theorem runBalance_concat (b : ℚ) (ts : List DebtTransaction) (t : DebtTransaction) :
    runBalance b (ts ++ [t]) = t.balanceAfter := by
  induction ts generalizing b with
  | nil => rfl
  | cons u us ih => simpa [runBalance] using ih u.balanceAfter

theorem replayOK_concat {b : ℚ} {ts : List DebtTransaction} {t : DebtTransaction}
    (h : replayOK b ts = true)
    (ht : t.balanceAfter = replayStep (runBalance b ts) t) :
    replayOK b (ts ++ [t]) = true := by
  induction ts generalizing b with
  | nil =>
    simp only [List.nil_append, replayOK, Bool.and_eq_true, beq_iff_eq]
    exact ⟨ht, trivial⟩
  | cons u us ih =>
    simp only [replayOK, Bool.and_eq_true, beq_iff_eq] at h
    simp only [List.cons_append, replayOK, Bool.and_eq_true, beq_iff_eq]
    exact ⟨h.1, ih h.2 (by simpa [runBalance] using ht)⟩

theorem replayBalances_eq_map {b : ℚ} {ts : List DebtTransaction}
    (h : replayOK b ts = true) :
    replayBalances b ts = ts.map (fun t => t.balanceAfter) := by
  induction ts generalizing b with
  | nil => rfl
  | cons u us ih =>
    simp only [replayOK, Bool.and_eq_true, beq_iff_eq] at h
    simp only [replayBalances, List.map_cons, ← h.1]
    exact congrArg _ (ih h.2)

theorem globalUnitPrice_pos {s : Store} {p : ℚ} (h : globalUnitPrice s = .ok p) : 0 < p := by
  unfold globalUnitPrice at h
  split at h
  · exact absurd h (by simp)
  · split at h
    · exact absurd h (by simp)
    · simp only [Except.ok.injEq] at h
      subst h
      linarith [not_le.mp (by assumption)]

theorem getUnitPrice_pos {s : Store} {cid : String} {p : ℚ}
    (h : getUnitPrice s cid = .ok p) : 0 < p := by
  unfold getUnitPrice at h
  split at h
  · exact absurd h (by simp)
  · split at h
    · exact absurd h (by simp)
    · split at h
      · split at h
        · simp only [Except.ok.injEq] at h
          subst h
          assumption
        · exact globalUnitPrice_pos h
      · exact globalUnitPrice_pos h

/-! ### Ledger invariants -/

/-- Per-tab invariant: the log replays exactly, all balance snapshots are
non-negative, an OPEN tab's balance is its last snapshot, and a CLOSED tab has
balance 0 with a last snapshot of at most `EPSILON`. -/
def TabInv (s : Store) (tab : DebtTab) : Prop :=
  replayOK 0 (txsOf s tab.id) = true
  ∧ 0 ≤ tab.totalBalance
  ∧ (∀ t ∈ txsOf s tab.id, 0 ≤ t.balanceAfter)
  ∧ (tab.status = .OPEN → tab.totalBalance = lastBalanceAfter (txsOf s tab.id))
  ∧ (tab.status = .CLOSED →
      tab.totalBalance = 0 ∧ lastBalanceAfter (txsOf s tab.id) ≤ EPSILON)

/-- Store-wide invariant maintained by all four operations. -/
def StoreInv (s : Store) : Prop :=
  (∀ tab ∈ s.tabs, TabInv s tab)
  ∧ s.tabs.Pairwise (fun a b => a.id ≠ b.id)
  ∧ (∀ tab ∈ s.tabs, tab.id < s.nextTabId)
  ∧ (∀ t ∈ s.transactions, t.debtTabId < s.nextTabId)

theorem tab_eq_of_id_eq {s : Store} (hp : s.tabs.Pairwise (fun a b => a.id ≠ b.id))
    {a b : DebtTab} (ha : a ∈ s.tabs) (hb : b ∈ s.tabs) (h : a.id = b.id) : a = b := by
  by_contra hne
  have hsymm : Symmetric (fun a b : DebtTab => a.id ≠ b.id) := by
    intro x y hxy q
    exact hxy q.symm
  exact hp.forall hsymm ha hb hne h

theorem storeInv_initStore (customers : List Customer) (price : Option ℚ) :
    StoreInv (initStore customers price) := by
  refine ⟨?_, ?_, ?_, ?_⟩ <;> simp [initStore]

theorem txsOf_withFreshTab (s : Store) (cid : String) (i : Nat) :
    txsOf (withFreshTab s cid) i = txsOf s i := rfl

theorem txsOf_fresh_nil (s : Store) (hTrx : ∀ t ∈ s.transactions, t.debtTabId < s.nextTabId) :
    txsOf s s.nextTabId = [] := by
  simp only [txsOf, List.filter_eq_nil_iff, beq_iff_eq]
  intro t ht
  exact Nat.ne_of_lt (hTrx t ht)

/-- Creating a fresh OPEN tab with balance 0 preserves the store invariant. -/
theorem storeInv_withFreshTab (s : Store) (cid : String) (hinv : StoreInv s) :
    StoreInv (withFreshTab s cid) := by
  obtain ⟨hTabs, hPair, hBound, hTrx⟩ := hinv
  have hfreshTxs : txsOf s s.nextTabId = [] := txsOf_fresh_nil s hTrx
  refine ⟨?_, ?_, ?_, ?_⟩
  · intro tab hmem
    simp only [withFreshTab, List.mem_append, List.mem_singleton] at hmem
    rcases hmem with hold | hnew
    · exact hTabs tab hold
    · subst hnew
      refine ⟨?_, le_refl 0, ?_, ?_, ?_⟩
      · show replayOK 0 (txsOf s s.nextTabId) = true
        simp [hfreshTxs, replayOK]
      · show ∀ t ∈ txsOf s s.nextTabId, 0 ≤ t.balanceAfter
        simp [hfreshTxs]
      · intro _
        show (0 : ℚ) = lastBalanceAfter (txsOf s s.nextTabId)
        simp [hfreshTxs, lastBalanceAfter]
      · intro hcl
        exact absurd hcl (by simp [freshTab])
  · show List.Pairwise _ (s.tabs ++ [freshTab s cid])
    rw [List.pairwise_append]
    refine ⟨hPair, by simp, ?_⟩
    intro a ha b hb
    simp only [List.mem_singleton] at hb
    subst hb
    exact Nat.ne_of_lt (hBound a ha)
  · intro tab hmem
    simp only [withFreshTab, List.mem_append, List.mem_singleton] at hmem
    show tab.id < s.nextTabId + 1
    rcases hmem with hold | hnew
    · exact Nat.lt_succ_of_lt (hBound tab hold)
    · subst hnew
      exact Nat.lt_succ_self _
  · intro t ht
    exact Nat.lt_succ_of_lt (hTrx t ht)

/-- The atomic write of every successful balance-changing operation: append one
transaction for a tab and update that tab's row. It preserves the store
invariant provided the new snapshot extends the replay and the updated row
satisfies the per-tab conditions. -/
theorem storeInv_appendUpdate (s : Store) (tab : DebtTab) (trx : DebtTransaction)
    (upd : DebtTab → DebtTab)
    (hinv : StoreInv s) (hmem : tab ∈ s.tabs)
    (hid : trx.debtTabId = tab.id)
    (hupd : ∀ t, (upd t).id = t.id)
    (hbA : 0 ≤ trx.balanceAfter)
    (hstep : trx.balanceAfter = replayStep (lastBalanceAfter (txsOf s tab.id)) trx)
    (hbal : 0 ≤ (upd tab).totalBalance)
    (hopen : (upd tab).status = .OPEN → (upd tab).totalBalance = trx.balanceAfter)
    (hclosed : (upd tab).status = .CLOSED →
        (upd tab).totalBalance = 0 ∧ trx.balanceAfter ≤ EPSILON) :
    StoreInv (updateTab (appendTransaction s trx) tab.id upd) := by
  obtain ⟨hTabs, hPair, hBound, hTrx⟩ := hinv
  have htxsEq : ∀ i : Nat, i ≠ tab.id →
      txsOf (updateTab (appendTransaction s trx) tab.id upd) i = txsOf s i := by
    intro i hne
    rw [txsOf_updateTab, txsOf_appendTransaction]
    have hcond : ¬(trx.debtTabId = i) := by
      rw [hid]
      exact fun hc => hne hc.symm
    rw [if_neg hcond, List.append_nil]
  have htxsTab : txsOf (updateTab (appendTransaction s trx) tab.id upd) tab.id =
      txsOf s tab.id ++ [trx] := by
    rw [txsOf_updateTab, txsOf_appendTransaction, if_pos hid]
  have htabsEq : (updateTab (appendTransaction s trx) tab.id upd).tabs =
      s.tabs.map (fun t => if t.id = tab.id then upd t else t) := rfl
  refine ⟨?_, ?_, ?_, ?_⟩
  · intro tb hmem2
    rw [htabsEq] at hmem2
    obtain ⟨t, htmem, hteq⟩ := List.mem_map.mp hmem2
    by_cases hcase : t.id = tab.id
    · have hteq2 : t = tab := tab_eq_of_id_eq hPair htmem hmem hcase
      subst hteq2
      rw [if_pos hcase] at hteq
      subst hteq
      obtain ⟨hreplay, _, hpos, hopeninv, _⟩ := hTabs t htmem
      have hOpenT : t.status = .OPEN ∨ t.status = .CLOSED := by
        cases t.status
        · exact Or.inl rfl
        · exact Or.inr rfl
      have hidEq : (upd t).id = t.id := hupd t
      refine ⟨?_, hbal, ?_, ?_, ?_⟩
      · rw [hidEq, htxsTab]
        refine replayOK_concat hreplay ?_
        rw [← lastBalanceAfter_eq_runBalance]
        exact hstep
      · rw [hidEq, htxsTab]
        intro u humem
        rcases List.mem_append.mp humem with h1 | h2
        · exact hpos u h1
        · simp only [List.mem_singleton] at h2
          subst h2
          exact hbA
      · intro hst
        rw [hidEq, htxsTab, lastBalanceAfter_concat]
        exact hopen hst
      · intro hst
        rw [hidEq, htxsTab, lastBalanceAfter_concat]
        exact hclosed hst
    · rw [if_neg hcase] at hteq
      subst hteq
      obtain ⟨hreplay, hb0, hpos, hopeninv, hclinv⟩ := hTabs t htmem
      unfold TabInv
      rw [htxsEq t.id hcase]
      exact ⟨hreplay, hb0, hpos, hopeninv, hclinv⟩
  · rw [htabsEq, List.pairwise_map]
    refine hPair.imp_of_mem ?_
    intro a b ha hb hne
    have hida : (if a.id = tab.id then upd a else a).id = a.id := by
      split
      · exact hupd a
      · rfl
    have hidb : (if b.id = tab.id then upd b else b).id = b.id := by
      split
      · exact hupd b
      · rfl
    rw [hida, hidb]
    exact hne
  · intro tb hmem2
    rw [htabsEq] at hmem2
    obtain ⟨t, htmem, hteq⟩ := List.mem_map.mp hmem2
    have : tb.id = t.id := by
      subst hteq
      split
      · exact hupd t
      · rfl
    rw [this]
    exact hBound t htmem
  · intro t ht
    rcases List.mem_append.mp ht with h1 | h2
    · exact hTrx t h1
    · simp only [List.mem_singleton] at h2
      subst h2
      rw [hid]
      exact hBound tab hmem

/-- A tab-row update with no transaction append (the closure step of
`markPaid` when no final payment is given). -/
theorem storeInv_update (s : Store) (tab : DebtTab) (upd : DebtTab → DebtTab)
    (hinv : StoreInv s) (hmem : tab ∈ s.tabs)
    (hupd : ∀ t, (upd t).id = t.id)
    (hbal : 0 ≤ (upd tab).totalBalance)
    (hopen : (upd tab).status = .OPEN →
        (upd tab).totalBalance = lastBalanceAfter (txsOf s tab.id))
    (hclosed : (upd tab).status = .CLOSED →
        (upd tab).totalBalance = 0 ∧ lastBalanceAfter (txsOf s tab.id) ≤ EPSILON) :
    StoreInv (updateTab s tab.id upd) := by
  obtain ⟨hTabs, hPair, hBound, hTrx⟩ := hinv
  refine ⟨?_, ?_, ?_, ?_⟩
  · intro tb hmem2
    obtain ⟨t, htmem, hteq⟩ := List.mem_map.mp hmem2
    by_cases hcase : t.id = tab.id
    · have hteq2 : t = tab := tab_eq_of_id_eq hPair htmem hmem hcase
      subst hteq2
      rw [if_pos hcase] at hteq
      subst hteq
      obtain ⟨hreplay, _, hpos, _, _⟩ := hTabs t htmem
      have hidEq : (upd t).id = t.id := hupd t
      unfold TabInv
      rw [hidEq, txsOf_updateTab]
      exact ⟨hreplay, hbal, hpos, hopen, hclosed⟩
    · rw [if_neg hcase] at hteq
      subst hteq
      exact hTabs t htmem
  · rw [show (updateTab s tab.id upd).tabs =
        s.tabs.map (fun t => if t.id = tab.id then upd t else t) from rfl,
      List.pairwise_map]
    refine hPair.imp_of_mem ?_
    intro a b ha hb hne
    have hida : (if a.id = tab.id then upd a else a).id = a.id := by
      split
      · exact hupd a
      · rfl
    have hidb : (if b.id = tab.id then upd b else b).id = b.id := by
      split
      · exact hupd b
      · rfl
    rw [hida, hidb]
    exact hne
  · intro tb hmem2
    obtain ⟨t, htmem, hteq⟩ := List.mem_map.mp hmem2
    have : tb.id = t.id := by
      subst hteq
      split
      · exact hupd t
      · rfl
    rw [this]
    exact hBound t htmem
  · exact hTrx

theorem storeInv_createPayment (s : Store) (input : PaymentInput) (userId : String)
    (hinv : StoreInv s) : StoreInv (stateAfter (createPayment s input userId) s) := by
  unfold createPayment
  split
  · exact hinv
  split
  · exact hinv
  next tab hfind =>
    split
    · exact hinv
    next hle =>
      obtain ⟨hmem, _, hstatus⟩ := findOpenTab_eq_some hfind
      obtain ⟨_, hb0, _, hopeninv, _⟩ := hinv.1 tab hmem
      have hlast : tab.totalBalance = lastBalanceAfter (txsOf s tab.id) := hopeninv hstatus
      simp only [stateAfter]
      apply storeInv_appendUpdate s tab _ _ hinv hmem rfl
      · intro t
        dsimp only
        split <;> rfl
      · exact le_max_left 0 _
      · simp only [replayStep, ← hlast]
      · dsimp only
        split
        · exact le_refl 0
        · exact le_max_left 0 _
      · dsimp only
        split
        · intro hopen2
          exact absurd hopen2 (by simp)
        · intro _
          rfl
      · dsimp only
        split
        · next hc =>
            intro _
            refine ⟨rfl, ?_⟩
            rw [abs_of_nonneg (le_max_left 0 _)] at hc
            exact le_of_lt hc
        · next hc =>
            intro hcl
            have h2 : tab.status = DebtStatus.CLOSED := hcl
            rw [hstatus] at h2
            exact absurd h2 (by simp)

theorem storeInv_createCharge (s : Store) (input : ChargeInput) (userId : String)
    (hinv : StoreInv s) : StoreInv (stateAfter (createCharge s input userId) s) := by
  unfold createCharge
  split
  · exact hinv
  next hcont =>
    split
    · exact hinv
    next unitPrice hup =>
      have hprice : 0 < unitPrice := getUnitPrice_pos hup
      have hamount : 0 < input.containers * unitPrice :=
        mul_pos (lt_of_not_le hcont) hprice
      unfold findOrCreateOpenTab
      split
      next tab hfind =>
        obtain ⟨hmem, _, hstatus⟩ := findOpenTab_eq_some hfind
        obtain ⟨_, hb0, _, hopeninv, _⟩ := hinv.1 tab hmem
        have hlast : tab.totalBalance = lastBalanceAfter (txsOf s tab.id) := hopeninv hstatus
        simp only [stateAfter]
        apply storeInv_appendUpdate s tab _ _ hinv hmem rfl
        · intro t
          rfl
        · exact add_nonneg hb0 (le_of_lt hamount)
        · simp only [replayStep, ← hlast]
        · exact add_nonneg hb0 (le_of_lt hamount)
        · intro _
          rfl
        · intro hcl
          rw [show ({ tab with totalBalance := tab.totalBalance + input.containers * unitPrice }
              : DebtTab).status = tab.status from rfl, hstatus] at hcl
          exact absurd hcl (by simp)
      next hfind =>
        have hinv1 : StoreInv (withFreshTab s input.customerId) :=
          storeInv_withFreshTab s input.customerId hinv
        have hmem1 : freshTab s input.customerId ∈ (withFreshTab s input.customerId).tabs := by
          simp [withFreshTab]
        have htxs0 : txsOf (withFreshTab s input.customerId) (freshTab s input.customerId).id
            = [] := by
          rw [txsOf_withFreshTab]
          exact txsOf_fresh_nil s hinv.2.2.2
        simp only [stateAfter]
        apply storeInv_appendUpdate _ (freshTab s input.customerId) _ _ hinv1 hmem1 rfl
        · intro t
          rfl
        · show (0 : ℚ) ≤ (freshTab s input.customerId).totalBalance + _
          simp only [freshTab]
          simpa using le_of_lt hamount
        · have h0 : txsOf (withFreshTab s input.customerId) s.nextTabId = [] :=
            txsOf_fresh_nil s hinv.2.2.2
          rw [show txsOf (withFreshTab s input.customerId)
                (freshTab s input.customerId).id = [] from h0]
          rfl
        · show (0 : ℚ) ≤ (freshTab s input.customerId).totalBalance + _
          simp only [freshTab]
          simpa using le_of_lt hamount
        · intro _
          rfl
        · intro hcl
          exact absurd hcl (by simp [freshTab])

theorem storeInv_createAdjustment (s : Store) (input : AdjustmentInput) (userId : String)
    (hinv : StoreInv s) : StoreInv (stateAfter (createAdjustment s input userId) s) := by
  unfold createAdjustment
  split
  · exact hinv
  split
  · exact hinv
  split
  · exact hinv
  next tab hfind =>
    dsimp only
    split
    · exact hinv
    next hge =>
      obtain ⟨hmem, _, hstatus⟩ := findOpenTab_eq_some hfind
      obtain ⟨_, hb0, _, hopeninv, _⟩ := hinv.1 tab hmem
      have hlast : tab.totalBalance = lastBalanceAfter (txsOf s tab.id) := hopeninv hstatus
      simp only [stateAfter]
      apply storeInv_appendUpdate s tab _ _ hinv hmem rfl
      · intro t
        rfl
      · exact le_max_left 0 _
      · simp only [replayStep, ← hlast]
      · exact le_max_left 0 _
      · intro _
        rfl
      · intro hcl
        rw [show ({ tab with totalBalance := max 0 (tab.totalBalance + input.amount) }
            : DebtTab).status = tab.status from rfl, hstatus] at hcl
        exact absurd hcl (by simp)

theorem storeInv_markPaid (s : Store) (customerId : String) (transactionDate : Int)
    (userId : String) (finalPayment : Option ℚ) (hinv : StoreInv s) :
    StoreInv (stateAfter (markPaid s customerId transactionDate userId finalPayment) s) := by
  unfold markPaid
  split
  · exact hinv
  next tab hfind =>
    obtain ⟨hmem, _, hstatus⟩ := findOpenTab_eq_some hfind
    obtain ⟨_, hb0, _, hopeninv, _⟩ := hinv.1 tab hmem
    have hlast : tab.totalBalance = lastBalanceAfter (txsOf s tab.id) := hopeninv hstatus
    split
    next fp hfp =>
      split
      next hpos =>
        split
        · exact hinv
        next hover =>
          dsimp only
          split
          · exact hinv
          next hclose =>
            simp only [stateAfter]
            apply storeInv_appendUpdate s tab _ _ hinv hmem rfl
            · intro t
              rfl
            · exact le_max_left 0 _
            · simp only [replayStep, ← hlast]
            · exact le_refl 0
            · intro hopen2
              exact absurd hopen2 (by simp)
            · intro _
              exact ⟨rfl, not_lt.mp hclose⟩
      next hpos =>
        dsimp only
        split
        · exact hinv
        next hclose =>
          simp only [stateAfter]
          apply storeInv_update s tab _ hinv hmem
          · intro t
            rfl
          · exact le_refl 0
          · intro hopen2
            exact absurd hopen2 (by simp)
          · intro _
            exact ⟨rfl, hlast ▸ not_lt.mp hclose⟩
    next hfp =>
      dsimp only
      split
      · exact hinv
      next hclose =>
        simp only [stateAfter]
        apply storeInv_update s tab _ hinv hmem
        · intro t
          rfl
        · exact le_refl 0
        · intro hopen2
          exact absurd hopen2 (by simp)
        · intro _
          exact ⟨rfl, hlast ▸ not_lt.mp hclose⟩

/-- Every reachable store satisfies the ledger invariant. -/
theorem storeInv_of_reachable {s : Store} (h : Reachable s) : StoreInv s := by
  induction h with
  | init customers price => exact storeInv_initStore customers price
  | charge s input userId _ ih => exact storeInv_createCharge s input userId ih
  | payment s input userId _ ih => exact storeInv_createPayment s input userId ih
  | adjustment s input userId _ ih => exact storeInv_createAdjustment s input userId ih
  | markPaidStep s customerId transactionDate userId finalPayment _ ih =>
      exact storeInv_markPaid s customerId transactionDate userId finalPayment ih

theorem zip_map_self {α β : Type} (f : α → β) :
    ∀ (l : List α), ∀ p ∈ l.zip (l.map f), p.2 = f p.1
  | [], p, hp => by simp at hp
  | a :: l, p, hp => by
      simp only [List.map_cons, List.zip_cons_cons, List.mem_cons] at hp
      rcases hp with h | h
      · rw [h]
      · exact zip_map_self f l p h

/-! ### Concrete scenario stores used to instantiate the theorems -/

def demoCustomer : Customer := { id := "c1", active := true, customUnitPrice := none }

/-- Scenario of the spec: charge 5 containers at global price 23. -/
def demoS0 : Store := initStore [demoCustomer] (some 23)

def demoChargeInput : ChargeInput :=
  { customerId := "c1", containers := 5, transactionDate := 1, notes := none }

def demoS1 : Store := stateAfter (createCharge demoS0 demoChargeInput "u") demoS0

theorem demoS1_reachable : Reachable demoS1 :=
  Reachable.charge demoS0 demoChargeInput "u" (Reachable.init [demoCustomer] (some 23))

def demoTab : DebtTab :=
  { id := 0, customerId := "c1", status := .OPEN, totalBalance := 115,
    openedAt := 0, closedAt := none }

def demoTrx : DebtTransaction :=
  { id := 0, debtTabId := 0, transactionType := .CHARGE, containers := some 5,
    unitPrice := some 23, amount := 115, balanceAfter := 115, notes := none,
    adjustmentReason := none, transactionDate := 1, enteredById := "u", createdAt := 1 }

theorem demoS1_eval :
    demoS1.tabs = [demoTab] ∧ demoS1.transactions = [demoTrx] := by
  constructor <;>
    norm_num [demoS1, demoS0, demoChargeInput, demoCustomer, demoTab, demoTrx, stateAfter,
      createCharge, getUnitPrice, globalUnitPrice, findOrCreateOpenTab, findOpenTab,
      freshTab, withFreshTab, initStore, appendTransaction, updateTab]

/-- Sub-epsilon residual scenario: price 0.008, charge 1 container, pay 0.005:
the payment closes the tab, zeroing a residual of 0.003 while the last
transaction snapshot stays at 0.003. -/
def ceS0 : Store := initStore [demoCustomer] (some (8/1000))

def ceS1 : Store :=
  stateAfter (createCharge ceS0
    { customerId := "c1", containers := 1, transactionDate := 1, notes := none } "u") ceS0

def ceS2 : Store :=
  stateAfter (createPayment ceS1
    { customerId := "c1", amount := 5/1000, transactionDate := 2, notes := none } "u") ceS1

theorem ceS2_reachable : Reachable ceS2 :=
  Reachable.payment ceS1
    { customerId := "c1", amount := 5/1000, transactionDate := 2, notes := none } "u"
    (Reachable.charge ceS0
      { customerId := "c1", containers := 1, transactionDate := 1, notes := none } "u"
      (Reachable.init [demoCustomer] (some (8/1000))))

def ceTab : DebtTab :=
  { id := 0, customerId := "c1", status := .CLOSED, totalBalance := 0,
    openedAt := 0, closedAt := some 2 }

theorem ceS2_eval :
    ceS2.tabs = [ceTab]
    ∧ (txsOf ceS2 0).map (fun t => t.balanceAfter) = [8/1000, 3/1000] := by
  constructor <;>
    norm_num [ceS2, ceS1, ceS0, demoCustomer, ceTab, stateAfter, createPayment, createCharge,
      getUnitPrice, globalUnitPrice, findOrCreateOpenTab, findOpenTab, freshTab, withFreshTab,
      initStore, appendTransaction, updateTab, EPSILON, txsOf, abs]

/-! ### Claim C7 -/

/-- C7: in every state reachable from an empty store by any sequence of
Charge, Payment, Adjustment and MarkPaid operations, every tab's
`totalBalance` is at least 0. -/
theorem C7_totalBalance_nonneg (s : Store) (h : Reachable s) :
    ∀ tab ∈ s.tabs, 0 ≤ tab.totalBalance :=
  fun tab hmem => ((storeInv_of_reachable h).1 tab hmem).2.1

theorem C7_witness : 0 ≤ demoTab.totalBalance :=
  C7_totalBalance_nonneg demoS1 demoS1_reachable demoTab (by rw [demoS1_eval.1]; simp)

/-! ### Claim C8 -/

/-- C8: for every tab of a reachable store, replaying the tab's ordered
transaction log from balance 0, applying each transaction by its declared
type and amount, reproduces every recorded `balanceAfter` within epsilon
(in the exact-arithmetic embedding the replay is exact). -/
theorem C8_replay_reproduces (s : Store) (h : Reachable s) :
    ∀ tab ∈ s.tabs, ∀ p ∈ (txsOf s tab.id).zip (replayBalances 0 (txsOf s tab.id)),
      |p.1.balanceAfter - p.2| ≤ EPSILON := by
  intro tab hmem p hp
  have hOK := ((storeInv_of_reachable h).1 tab hmem).1
  rw [replayBalances_eq_map hOK] at hp
  rw [zip_map_self (fun t => t.balanceAfter) (txsOf s tab.id) p hp, sub_self, abs_zero]
  norm_num [EPSILON]

theorem C8_witness : |demoTrx.balanceAfter - (115 : ℚ)| ≤ EPSILON := by
  refine C8_replay_reproduces demoS1 demoS1_reachable demoTab
    (by rw [demoS1_eval.1]; simp) (demoTrx, 115) ?_
  have htx : txsOf demoS1 demoTab.id = [demoTrx] := by
    rw [show demoTab.id = 0 from rfl, txsOf, demoS1_eval.2]
    norm_num [demoTrx]
  rw [htx]
  norm_num [replayBalances, replayStep, demoTrx]

/-! ### Claim C6 -/

/-- C6 as stated is refuted by the sub-epsilon close: in the reachable store
`ceS2` the closed tab has `totalBalance = 0` while the `balanceAfter` of its
most recent transaction is 0.003. -/
theorem C6_counterexample :
    Reachable ceS2 ∧ ceTab ∈ ceS2.tabs
    ∧ ceTab.totalBalance ≠ lastBalanceAfter (txsOf ceS2 ceTab.id) := by
  refine ⟨ceS2_reachable, by rw [ceS2_eval.1]; simp, ?_⟩
  have h2 : (txsOf ceS2 0).map (fun t => t.balanceAfter) = [8/1000, 3/1000] := ceS2_eval.2
  show ceTab.totalBalance ≠ lastBalanceAfter (txsOf ceS2 0)
  cases htx : txsOf ceS2 0 with
  | nil => rw [htx] at h2; simp at h2
  | cons a l =>
    cases l with
    | nil => rw [htx] at h2; simp at h2
    | cons b l2 =>
      cases l2 with
      | nil =>
        rw [htx] at h2
        simp only [List.map_cons, List.map_nil, List.cons.injEq, and_true] at h2
        rw [show lastBalanceAfter [a, b] = b.balanceAfter from rfl, h2.2]
        norm_num [ceTab]
      | cons c l3 => rw [htx] at h2; simp at h2

/-- C6 (amended): every tab's `totalBalance` is within epsilon of the
`balanceAfter` of its most recent transaction (0 if none), with exact equality
whenever the tab is OPEN; the discrepancy arises only because closing a tab
zeroes a sub-epsilon residual. -/
theorem C6_amended_balance_matches_last (s : Store) (h : Reachable s) :
    ∀ tab ∈ s.tabs,
      |tab.totalBalance - lastBalanceAfter (txsOf s tab.id)| ≤ EPSILON
      ∧ (tab.status = .OPEN → tab.totalBalance = lastBalanceAfter (txsOf s tab.id)) := by
  intro tab hmem
  obtain ⟨_, _, hpos, hopen, hclosed⟩ := (storeInv_of_reachable h).1 tab hmem
  cases hst : tab.status with
  | OPEN =>
    refine ⟨?_, fun _ => hopen hst⟩
    rw [hopen hst, sub_self, abs_zero]
    norm_num [EPSILON]
  | CLOSED =>
    obtain ⟨hz, hle⟩ := hclosed hst
    refine ⟨?_, fun ho => ?_⟩
    · rw [hz, zero_sub, abs_neg, abs_of_nonneg (lastBalanceAfter_nonneg hpos)]
      exact hle
    · exact absurd ho (by simp)

theorem C6_amended_witness :
    |demoTab.totalBalance - lastBalanceAfter (txsOf demoS1 demoTab.id)| ≤ EPSILON
    ∧ (demoTab.status = .OPEN →
        demoTab.totalBalance = lastBalanceAfter (txsOf demoS1 demoTab.id)) :=
  C6_amended_balance_matches_last demoS1 demoS1_reachable demoTab
    (by rw [demoS1_eval.1]; simp)

/-! ### Claim C1 -/

/-- C1: for every Payment with amount > 0 against a customer holding an OPEN
tab with balance B: if the amount exceeds B by more than epsilon the operation
fails with ValidationError "Overpayment not allowed"; otherwise exactly one
PAYMENT transaction is appended with `balanceAfter = max 0 (B - amount)` and
the tab takes that balance; if the new balance is within epsilon of zero the
tab becomes CLOSED with `totalBalance = 0` and `closedAt` the transaction
date, otherwise it stays OPEN. With no OPEN tab the operation fails with
NotFoundError. -/
theorem C1_payment_contract (s : Store) (input : PaymentInput) (userId : String)
    (hpos : 0 < input.amount) :
    (findOpenTab s input.customerId = none →
      createPayment s input userId = .error (NotFoundError "No open debt tab for customer"))
    ∧ (∀ tab, findOpenTab s input.customerId = some tab →
        (EPSILON < input.amount - tab.totalBalance →
          createPayment s input userId = .error (ValidationError "Overpayment not allowed"))
        ∧ (input.amount - tab.totalBalance ≤ EPSILON →
            ∃ s2 trx utab, createPayment s input userId = .ok (s2, ⟨trx, utab⟩)
              ∧ s2.transactions = s.transactions ++ [trx]
              ∧ trx.transactionType = .PAYMENT
              ∧ trx.amount = input.amount
              ∧ trx.balanceAfter = max 0 (tab.totalBalance - input.amount)
              ∧ utab ∈ s2.tabs
              ∧ (|max 0 (tab.totalBalance - input.amount)| < EPSILON →
                  utab.status = .CLOSED ∧ utab.totalBalance = 0
                    ∧ utab.closedAt = some input.transactionDate)
              ∧ (EPSILON ≤ |max 0 (tab.totalBalance - input.amount)| →
                  utab.status = .OPEN
                    ∧ utab.totalBalance = max 0 (tab.totalBalance - input.amount)))) := by
  have hnotle : ¬ input.amount ≤ 0 := not_le.mpr hpos
  constructor
  · intro hnone
    unfold createPayment
    rw [if_neg hnotle, hnone]
  · intro tab htab
    obtain ⟨hmem, _, hstatus⟩ := findOpenTab_eq_some htab
    constructor
    · intro hover
      unfold createPayment
      rw [if_neg hnotle, htab]
      dsimp only
      rw [if_pos hover]
    · intro hle
      unfold createPayment
      rw [if_neg hnotle, htab]
      dsimp only
      rw [if_neg (not_lt.mpr hle)]
      refine ⟨_, _, _, rfl, rfl, rfl, rfl, rfl, ?_, ?_, ?_⟩
      · exact List.mem_map.mpr ⟨tab, hmem, by rw [if_pos rfl]⟩
      · intro hc
        rw [if_pos hc]
        exact ⟨rfl, rfl, rfl⟩
      · intro hc
        rw [if_neg (not_lt.mpr hc)]
        exact ⟨hstatus, rfl⟩

theorem C1_witness :
    createPayment demoS1
        { customerId := "c1", amount := 150, transactionDate := 2, notes := none } "u"
      = .error (ValidationError "Overpayment not allowed") := by
  have htab : findOpenTab demoS1 "c1" = some demoTab := by
    rw [findOpenTab, demoS1_eval.1]
    norm_num [demoTab]
  exact ((C1_payment_contract demoS1
      { customerId := "c1", amount := 150, transactionDate := 2, notes := none } "u"
      (by norm_num)).2 demoTab htab).1 (by norm_num [demoTab, EPSILON])

/-! ### Claim C2 -/

/-- C2: MarkPaid on a customer holding an OPEN tab with balance B: a provided
finalPayment > 0 must not exceed B by more than epsilon (else
ValidationError), and is applied exactly like a Payment — one PAYMENT
transaction appended with `balanceAfter = max 0 (B - finalPayment)` — before
closure is evaluated; if the remaining balance exceeds epsilon the operation
fails with ValidationError "Cannot close tab with non-zero balance",
otherwise the tab is closed with status CLOSED, `totalBalance = 0`,
`closedAt = date`. With no OPEN tab it fails with NotFoundError. -/
theorem C2_markPaid_contract (s : Store) (cid : String) (date : Int) (userId : String)
    (fp : Option ℚ) :
    (findOpenTab s cid = none →
      markPaid s cid date userId fp = .error (NotFoundError "No open debt tab for customer"))
    ∧ (∀ tab, findOpenTab s cid = some tab →
        (∀ v, fp = some v → 0 < v →
          (EPSILON < v - tab.totalBalance →
            markPaid s cid date userId fp
              = .error (ValidationError "Final payment exceeds remaining balance"))
          ∧ (v - tab.totalBalance ≤ EPSILON →
              (EPSILON < max 0 (tab.totalBalance - v) →
                markPaid s cid date userId fp
                  = .error (ValidationError "Cannot close tab with non-zero balance"))
              ∧ (max 0 (tab.totalBalance - v) ≤ EPSILON →
                  ∃ s2 trx utab, markPaid s cid date userId fp = .ok (s2, ⟨utab, some trx⟩)
                    ∧ s2.transactions = s.transactions ++ [trx]
                    ∧ trx.transactionType = .PAYMENT
                    ∧ trx.amount = v
                    ∧ trx.balanceAfter = max 0 (tab.totalBalance - v)
                    ∧ utab.status = .CLOSED ∧ utab.totalBalance = 0
                    ∧ utab.closedAt = some date
                    ∧ utab ∈ s2.tabs)))
        ∧ ((fp = none ∨ (∃ v, fp = some v ∧ v ≤ 0)) →
            (EPSILON < tab.totalBalance →
              markPaid s cid date userId fp
                = .error (ValidationError "Cannot close tab with non-zero balance"))
            ∧ (tab.totalBalance ≤ EPSILON →
                ∃ s2 utab, markPaid s cid date userId fp = .ok (s2, ⟨utab, none⟩)
                  ∧ s2.transactions = s.transactions
                  ∧ utab.status = .CLOSED ∧ utab.totalBalance = 0
                  ∧ utab.closedAt = some date
                  ∧ utab ∈ s2.tabs))) := by
  constructor
  · intro hnone
    unfold markPaid
    rw [hnone]
  · intro tab htab
    obtain ⟨hmem, _, hstatus⟩ := findOpenTab_eq_some htab
    constructor
    · intro v hv hvpos
      subst hv
      constructor
      · intro hover
        unfold markPaid
        rw [htab]
        dsimp only
        rw [if_pos hvpos, if_pos hover]
      · intro hle
        constructor
        · intro hc
          unfold markPaid
          rw [htab]
          dsimp only
          rw [if_pos hvpos, if_neg (not_lt.mpr hle)]
          dsimp only
          rw [if_pos hc]
        · intro hc
          unfold markPaid
          rw [htab]
          dsimp only
          rw [if_pos hvpos, if_neg (not_lt.mpr hle)]
          dsimp only
          rw [if_neg (not_lt.mpr hc)]
          refine ⟨_, _, _, rfl, rfl, rfl, rfl, rfl, rfl, rfl, rfl, ?_⟩
          exact List.mem_map.mpr ⟨tab, hmem, by rw [if_pos rfl]⟩
    · intro hcase
      rcases hcase with hnone | ⟨v, hv, hvle⟩
      · subst hnone
        constructor
        · intro hc
          unfold markPaid
          rw [htab]
          dsimp only
          rw [if_pos hc]
        · intro hc
          unfold markPaid
          rw [htab]
          dsimp only
          rw [if_neg (not_lt.mpr hc)]
          refine ⟨_, _, rfl, rfl, rfl, rfl, rfl, ?_⟩
          exact List.mem_map.mpr ⟨tab, hmem, by rw [if_pos rfl]⟩
      · subst hv
        constructor
        · intro hc
          unfold markPaid
          rw [htab]
          dsimp only
          rw [if_neg (not_lt.mpr hvle)]
          dsimp only
          rw [if_pos hc]
        · intro hc
          unfold markPaid
          rw [htab]
          dsimp only
          rw [if_neg (not_lt.mpr hvle)]
          dsimp only
          rw [if_neg (not_lt.mpr hc)]
          refine ⟨_, _, rfl, rfl, rfl, rfl, rfl, ?_⟩
          exact List.mem_map.mpr ⟨tab, hmem, by rw [if_pos rfl]⟩

theorem C2_witness :
    markPaid demoS1 "c1" 9 "u" (some 80)
      = .error (ValidationError "Cannot close tab with non-zero balance") := by
  have htab : findOpenTab demoS1 "c1" = some demoTab := by
    rw [findOpenTab, demoS1_eval.1]
    norm_num [demoTab]
  exact (((C2_markPaid_contract demoS1 "c1" 9 "u" (some 80)).2 demoTab htab).1 80 rfl
      (by norm_num)).2 (by norm_num [demoTab, EPSILON]) |>.1
      (by norm_num [demoTab, EPSILON])

/-! ### Claim C3 -/

/-- C3 as stated is refuted: an adjustment of amount 0.004 against an OPEN tab
with balance 115 has a non-blank reason, a non-zero amount, and a new balance
far above -epsilon, yet the code rejects it, because `createAdjustment`
requires `|amount| >= EPSILON`, not merely `amount != 0`. -/
theorem C3_counterexample :
    createAdjustment demoS1
        { customerId := "c1", amount := 4/1000, reason := "fix",
          transactionDate := 2, notes := none } "u"
      = .error (ValidationError "Adjustment amount cannot be zero")
    ∧ (4/1000 : ℚ) ≠ 0
    ∧ isBlank "fix" = false
    ∧ ¬(demoTab.totalBalance + 4/1000 < -EPSILON) := by
  refine ⟨?_, by norm_num, by decide, by norm_num [demoTab, EPSILON]⟩
  unfold createAdjustment
  rw [if_neg (by decide)]
  rw [if_pos ?hc]
  case hc =>
    show |(4 : ℚ)/1000| < EPSILON
    rw [abs_of_nonneg (by norm_num)]
    norm_num [EPSILON]

/-- C3 (amended): an Adjustment is rejected with ValidationError exactly when
the reason is blank, or `|amount| < EPSILON` (the code's stricter version of
"amount is zero"), or `B + amount < -EPSILON`; otherwise it appends exactly one
ADJUSTMENT transaction carrying the reason with
`balanceAfter = max 0 (B + amount)`, sets the tab balance to that value, and
leaves the tab OPEN. With no OPEN tab (and the input checks passing) it fails
with NotFoundError. -/
theorem C3_adjustment_contract (s : Store) (input : AdjustmentInput) (userId : String) :
    (isBlank input.reason = true →
      createAdjustment s input userId = .error (ValidationError "Adjustment reason is required"))
    ∧ (isBlank input.reason = false → |input.amount| < EPSILON →
      createAdjustment s input userId = .error (ValidationError "Adjustment amount cannot be zero"))
    ∧ (isBlank input.reason = false → EPSILON ≤ |input.amount| →
        (findOpenTab s input.customerId = none →
          createAdjustment s input userId = .error (NotFoundError "No open debt tab for customer"))
        ∧ (∀ tab, findOpenTab s input.customerId = some tab →
            (tab.totalBalance + input.amount < -EPSILON →
              createAdjustment s input userId
                = .error (ValidationError "Adjustment would result in negative balance"))
            ∧ (-EPSILON ≤ tab.totalBalance + input.amount →
                ∃ s2 trx utab, createAdjustment s input userId = .ok (s2, ⟨trx, utab⟩)
                  ∧ s2.transactions = s.transactions ++ [trx]
                  ∧ trx.transactionType = .ADJUSTMENT
                  ∧ trx.amount = input.amount
                  ∧ trx.adjustmentReason = some input.reason
                  ∧ trx.balanceAfter = max 0 (tab.totalBalance + input.amount)
                  ∧ utab.status = .OPEN
                  ∧ utab.totalBalance = max 0 (tab.totalBalance + input.amount)
                  ∧ utab ∈ s2.tabs))) := by
  refine ⟨?_, ?_, ?_⟩
  · intro hblank
    unfold createAdjustment
    rw [if_pos hblank]
  · intro hblank hsmall
    unfold createAdjustment
    rw [if_neg (by simp [hblank]), if_pos hsmall]
  · intro hblank hbig
    have hnotsmall : ¬ |input.amount| < EPSILON := not_lt.mpr hbig
    constructor
    · intro hnone
      unfold createAdjustment
      rw [if_neg (by simp [hblank]), if_neg hnotsmall, hnone]
    · intro tab htab
      obtain ⟨hmem, _, hstatus⟩ := findOpenTab_eq_some htab
      constructor
      · intro hneg
        unfold createAdjustment
        rw [if_neg (by simp [hblank]), if_neg hnotsmall, htab]
        dsimp only
        rw [if_pos hneg]
      · intro hge
        unfold createAdjustment
        rw [if_neg (by simp [hblank]), if_neg hnotsmall, htab]
        dsimp only
        rw [if_neg (not_lt.mpr hge)]
        refine ⟨_, _, _, rfl, rfl, rfl, rfl, rfl, rfl, hstatus, rfl, ?_⟩
        exact List.mem_map.mpr ⟨tab, hmem, by rw [if_pos rfl]⟩

theorem C3_witness :
    createAdjustment demoS1
        { customerId := "c1", amount := -120, reason := "goodwill",
          transactionDate := 2, notes := none } "u"
      = .error (ValidationError "Adjustment would result in negative balance") := by
  have htab : findOpenTab demoS1 "c1" = some demoTab := by
    rw [findOpenTab, demoS1_eval.1]
    norm_num [demoTab]
  have habs : EPSILON ≤ |(-120 : ℚ)| := by
    rw [abs_of_nonpos (by norm_num)]
    norm_num [EPSILON]
  exact (((C3_adjustment_contract demoS1
      { customerId := "c1", amount := -120, reason := "goodwill",
        transactionDate := 2, notes := none } "u").2.2 (by decide) habs).2 demoTab htab).1
    (by norm_num [demoTab, EPSILON])

/-! ### Claim C4 -/

theorem getUnitPrice_no_customer {s : Store} {cid : String}
    (h : s.customers.find? (fun c => c.id == cid) = none) :
    getUnitPrice s cid = .error (NotFoundError "Customer not found") := by
  unfold getUnitPrice
  rw [h]

theorem getUnitPrice_inactive {s : Store} {cid : String} {c : Customer}
    (h : s.customers.find? (fun c => c.id == cid) = some c) (ha : c.active = false) :
    getUnitPrice s cid = .error (ValidationError "Cannot record debt for inactive customer") := by
  unfold getUnitPrice
  rw [h]
  dsimp only
  rw [if_pos (by rw [ha]; rfl)]

theorem getUnitPrice_override {s : Store} {cid : String} {c : Customer} {q : ℚ}
    (h : s.customers.find? (fun c => c.id == cid) = some c) (ha : c.active = true)
    (hq : c.customUnitPrice = some q) (hqpos : 0 < q) :
    getUnitPrice s cid = .ok q := by
  unfold getUnitPrice
  rw [h]
  dsimp only
  rw [if_neg (by rw [ha]; simp), hq]
  dsimp only
  rw [if_pos hqpos]

theorem getUnitPrice_fallback {s : Store} {cid : String} {c : Customer}
    (h : s.customers.find? (fun c => c.id == cid) = some c) (ha : c.active = true)
    (hq : c.customUnitPrice = none ∨ ∃ q, c.customUnitPrice = some q ∧ q ≤ 0) :
    getUnitPrice s cid = globalUnitPrice s := by
  unfold getUnitPrice
  rw [h]
  dsimp only
  rw [if_neg (by rw [ha]; simp)]
  rcases hq with hnone | ⟨q, hsome, hle⟩
  · rw [hnone]
  · rw [hsome]
    dsimp only
    rw [if_neg (not_lt.mpr hle)]

theorem createCharge_err {s : Store} {input : ChargeInput} {userId : String} {e : AppError}
    (hcont : 0 < input.containers)
    (hup : getUnitPrice s input.customerId = .error e) :
    createCharge s input userId = .error e := by
  unfold createCharge
  rw [if_neg (not_le.mpr hcont), hup]

/-- The success shape of a Charge with resolved unit price `u`: exactly one
CHARGE transaction appended with `balanceAfter` = previous balance + amount,
landing on the existing OPEN tab or a newly created OPEN tab with starting
balance 0, and the tab is never closed by a charge. -/
def ChargeSuccess (s : Store) (input : ChargeInput) (userId : String) (u : ℚ) : Prop :=
  ∃ s2 trx utab, createCharge s input userId = .ok (s2, ⟨trx, utab⟩)
    ∧ s2.transactions = s.transactions ++ [trx]
    ∧ trx.transactionType = .CHARGE
    ∧ trx.unitPrice = some u
    ∧ trx.containers = some input.containers
    ∧ trx.amount = input.containers * u
    ∧ utab.status = .OPEN
    ∧ utab ∈ s2.tabs
    ∧ (∀ tab, findOpenTab s input.customerId = some tab →
        trx.balanceAfter = tab.totalBalance + input.containers * u
        ∧ utab.totalBalance = tab.totalBalance + input.containers * u)
    ∧ (findOpenTab s input.customerId = none →
        trx.balanceAfter = input.containers * u
        ∧ utab.totalBalance = input.containers * u
        ∧ utab.customerId = input.customerId)

theorem createCharge_ok {s : Store} {input : ChargeInput} {userId : String} {u : ℚ}
    (hcont : 0 < input.containers)
    (hup : getUnitPrice s input.customerId = .ok u) :
    ChargeSuccess s input userId u := by
  unfold ChargeSuccess createCharge
  rw [if_neg (not_le.mpr hcont), hup]
  dsimp only
  unfold findOrCreateOpenTab
  cases htab : findOpenTab s input.customerId with
  | some tab =>
    obtain ⟨hmem, _, hstatus⟩ := findOpenTab_eq_some htab
    dsimp only
    refine ⟨_, _, _, rfl, rfl, rfl, rfl, rfl, rfl, hstatus, ?_, ?_, ?_⟩
    · exact List.mem_map.mpr ⟨tab, hmem, by rw [if_pos rfl]⟩
    · intro tab2 htab2
      have heq : tab = tab2 := by simpa using htab2
      subst heq
      exact ⟨rfl, rfl⟩
    · intro hnone
      exact absurd hnone (by simp)
  | none =>
    dsimp only
    refine ⟨_, _, _, rfl, rfl, rfl, rfl, rfl, rfl, rfl, ?_, ?_, ?_⟩
    · refine List.mem_map.mpr ⟨freshTab s input.customerId, ?_, by rw [if_pos rfl]⟩
      simp [appendTransaction, withFreshTab]
    · intro tab2 htab2
      exact absurd htab2 (by simp)
    · intro _
      refine ⟨?_, ?_, rfl⟩
      · show (freshTab s input.customerId).totalBalance + input.containers * u
            = input.containers * u
        simp [freshTab]
      · show (freshTab s input.customerId).totalBalance + input.containers * u
            = input.containers * u
        simp [freshTab]

/-- C4 as stated is refuted on precedence: for a charge with containers = 0
against a customer that does not exist, the code rejects with the containers
ValidationError, not with NotFoundError — containers are validated before the
customer lookup. -/
theorem C4_counterexample :
    createCharge (initStore [] (some 23))
        { customerId := "ghost", containers := 0, transactionDate := 1, notes := none } "u"
      = .error (ValidationError "Containers must be greater than 0")
    ∧ (initStore [] (some 23)).customers.find? (fun c => c.id == "ghost") = none
    ∧ ValidationError "Containers must be greater than 0"
        ≠ NotFoundError "Customer not found" := by
  refine ⟨?_, rfl, by decide⟩
  unfold createCharge
  rw [if_pos (by norm_num)]

/-- C4 (amended): Charge validates containers first — containers <= 0 is a
ValidationError regardless of the customer; with containers > 0 it fails with
NotFoundError for a missing customer, ValidationError for an inactive one,
ConfigurationError when no strictly positive override exists and the global
unit price setting is missing/non-numeric or <= 0; otherwise the unit price is
the positive customer override, else the global price, `amount = containers *
unitPrice`, the charge lands on the existing OPEN tab or on a newly created
OPEN tab with starting balance 0, exactly one CHARGE transaction is appended
with `balanceAfter` = previous balance + amount, the tab takes that balance
and is never closed by a charge. -/
theorem C4_charge_contract (s : Store) (input : ChargeInput) (userId : String) :
    (input.containers ≤ 0 →
      createCharge s input userId = .error (ValidationError "Containers must be greater than 0"))
    ∧ (0 < input.containers →
        (s.customers.find? (fun c => c.id == input.customerId) = none →
          createCharge s input userId = .error (NotFoundError "Customer not found"))
        ∧ (∀ c, s.customers.find? (fun c => c.id == input.customerId) = some c →
            (c.active = false →
              createCharge s input userId
                = .error (ValidationError "Cannot record debt for inactive customer"))
            ∧ (c.active = true →
                (∀ q, c.customUnitPrice = some q → 0 < q → ChargeSuccess s input userId q)
                ∧ ((c.customUnitPrice = none ∨ ∃ q, c.customUnitPrice = some q ∧ q ≤ 0) →
                    (s.unitPriceSetting = none →
                      createCharge s input userId
                        = .error (ConfigurationError "Unit price setting is missing or invalid"))
                    ∧ (∀ g, s.unitPriceSetting = some g →
                        (g ≤ 0 →
                          createCharge s input userId
                            = .error (ConfigurationError "Unit price setting is missing or invalid"))
                        ∧ (0 < g → ChargeSuccess s input userId g)))))) := by
  constructor
  · intro hle
    unfold createCharge
    rw [if_pos hle]
  · intro hcont
    constructor
    · intro hnone
      exact createCharge_err hcont (getUnitPrice_no_customer hnone)
    · intro c hc
      constructor
      · intro hinact
        exact createCharge_err hcont (getUnitPrice_inactive hc hinact)
      · intro hact
        constructor
        · intro q hq hqpos
          exact createCharge_ok hcont (getUnitPrice_override hc hact hq hqpos)
        · intro hfb
          have hgp := getUnitPrice_fallback hc hact hfb
          constructor
          · intro hset
            refine createCharge_err hcont ?_
            rw [hgp]
            unfold globalUnitPrice
            rw [hset]
          · intro g hset
            constructor
            · intro hgle
              refine createCharge_err hcont ?_
              rw [hgp]
              unfold globalUnitPrice
              rw [hset]
              dsimp only
              rw [if_pos hgle]
            · intro hgpos
              refine createCharge_ok hcont ?_
              rw [hgp]
              unfold globalUnitPrice
              rw [hset]
              dsimp only
              rw [if_neg (not_le.mpr hgpos)]

theorem C4_witness : ChargeSuccess demoS0 demoChargeInput "u" 23 := by
  have hfind : demoS0.customers.find? (fun c => c.id == "c1") = some demoCustomer := by
    simp [demoS0, initStore, demoCustomer]
  exact ((((C4_charge_contract demoS0 demoChargeInput "u").2
      (by norm_num [demoChargeInput])).2 demoCustomer hfind).2 rfl).2
      (Or.inl rfl) |>.2 23 rfl |>.2 (by norm_num)

/-! ### Claims C5 and C9: shared success-shape inversion lemmas -/

theorem updateTab_mem_orig {s : Store} {tabId : Nat} {f : DebtTab → DebtTab}
    (hf : ∀ t, (f t).id = t.id) :
    ∀ t ∈ (updateTab s tabId f).tabs, t ∈ s.tabs ∨ t.id = tabId := by
  intro t ht
  obtain ⟨t0, ht0, heq⟩ := List.mem_map.mp ht
  by_cases hc : t0.id = tabId
  · right
    rw [← heq, if_pos hc, hf t0]
    exact hc
  · left
    rw [← heq, if_neg hc]
    exact ht0

theorem createPayment_ok_shape {s : Store} {input : PaymentInput} {userId : String}
    {s2 : Store} {r : OpResult} (h : createPayment s input userId = .ok (s2, r)) :
    s2.transactions = s.transactions ++ [r.transaction]
    ∧ (∀ t ∈ s2.tabs, t ∈ s.tabs ∨ t.id = r.tab.id) := by
  unfold createPayment at h
  split at h
  · exact absurd h (by simp)
  split at h
  · exact absurd h (by simp)
  next tab htab =>
    split at h
    · exact absurd h (by simp)
    · dsimp only at h
      simp only [Except.ok.injEq, Prod.mk.injEq] at h
      obtain ⟨h1, h2⟩ := h
      subst h1
      subst h2
      refine ⟨rfl, ?_⟩
      intro t ht
      have hf : ∀ u : DebtTab,
          ((fun t : DebtTab =>
            if |max 0 (tab.totalBalance - input.amount)| < EPSILON then
              { t with totalBalance := 0, status := DebtStatus.CLOSED,
                       closedAt := some input.transactionDate }
            else { t with totalBalance := max 0 (tab.totalBalance - input.amount) }) u).id
          = u.id := by
        intro u
        dsimp only
        split <;> rfl
      rcases updateTab_mem_orig hf t ht with h1 | h2
      · exact Or.inl h1
      · right
        rw [h2]
        dsimp only
        split <;> rfl

theorem createAdjustment_ok_shape {s : Store} {input : AdjustmentInput} {userId : String}
    {s2 : Store} {r : OpResult} (h : createAdjustment s input userId = .ok (s2, r)) :
    s2.transactions = s.transactions ++ [r.transaction]
    ∧ (∀ t ∈ s2.tabs, t ∈ s.tabs ∨ t.id = r.tab.id) := by
  unfold createAdjustment at h
  split at h
  · exact absurd h (by simp)
  split at h
  · exact absurd h (by simp)
  split at h
  · exact absurd h (by simp)
  next tab htab =>
    dsimp only at h
    split at h
    · exact absurd h (by simp)
    · simp only [Except.ok.injEq, Prod.mk.injEq] at h
      obtain ⟨h1, h2⟩ := h
      subst h1
      subst h2
      refine ⟨rfl, ?_⟩
      intro t ht
      have hf : ∀ u : DebtTab,
          ((fun t : DebtTab => { t with totalBalance := max 0 (tab.totalBalance + input.amount) }) u).id
          = u.id := fun u => rfl
      rcases updateTab_mem_orig hf t ht with h1 | h2
      · exact Or.inl h1
      · exact Or.inr h2

theorem createCharge_ok_shape {s : Store} {input : ChargeInput} {userId : String}
    {s2 : Store} {r : OpResult} (h : createCharge s input userId = .ok (s2, r)) :
    s2.transactions = s.transactions ++ [r.transaction]
    ∧ (∀ t ∈ s2.tabs, t ∈ s.tabs ∨ t.id = r.tab.id) := by
  unfold createCharge at h
  split at h
  · exact absurd h (by simp)
  split at h
  · exact absurd h (by simp)
  next u hup =>
    unfold findOrCreateOpenTab at h
    dsimp only at h
    split at h
    next tab htab =>
      dsimp only at h
      simp only [Except.ok.injEq, Prod.mk.injEq] at h
      obtain ⟨h1, h2⟩ := h
      subst h1
      subst h2
      refine ⟨rfl, ?_⟩
      intro t ht
      have hf : ∀ v : DebtTab,
          ((fun t : DebtTab => { t with totalBalance := tab.totalBalance + input.containers * u }) v).id
          = v.id := fun v => rfl
      rcases updateTab_mem_orig hf t ht with h1 | h2
      · exact Or.inl h1
      · exact Or.inr h2
    next htab =>
      dsimp only at h
      simp only [Except.ok.injEq, Prod.mk.injEq] at h
      obtain ⟨h1, h2⟩ := h
      subst h1
      subst h2
      refine ⟨rfl, ?_⟩
      intro t ht
      have hf : ∀ v : DebtTab,
          ((fun t : DebtTab => { t with
              totalBalance := (freshTab s input.customerId).totalBalance
                + input.containers * u }) v).id = v.id := fun v => rfl
      rcases updateTab_mem_orig hf t ht with h1 | h2
      · rcases List.mem_append.mp h1 with h3 | h4
        · exact Or.inl h3
        · right
          simp only [List.mem_singleton] at h4
          rw [h4]
      · exact Or.inr h2

theorem markPaid_ok_shape {s : Store} {cid : String} {date : Int} {userId : String}
    {fp : Option ℚ} {s2 : Store} {r : MarkPaidResult}
    (h : markPaid s cid date userId fp = .ok (s2, r)) :
    s2.transactions = s.transactions ++ r.transaction.toList
    ∧ (∀ t ∈ s2.tabs, t ∈ s.tabs ∨ t.id = r.tab.id)
    ∧ (r.transaction.isSome = true ↔ ∃ v, fp = some v ∧ 0 < v) := by
  have hf : ∀ (d : Int) (v : DebtTab),
      ((fun t : DebtTab =>
          { t with status := DebtStatus.CLOSED, closedAt := some d,
                   totalBalance := (0 : ℚ) }) v).id = v.id := fun _ _ => rfl
  unfold markPaid at h
  split at h
  · exact absurd h (by simp)
  next tab htab =>
    cases fp with
    | none =>
      dsimp only at h
      split at h
      · exact absurd h (by simp)
      next hclose =>
        simp only [Except.ok.injEq, Prod.mk.injEq] at h
        obtain ⟨h1, h2⟩ := h
        subst h1
        subst h2
        refine ⟨by simp [updateTab, Option.toList], ?_, ?_⟩
        · intro t ht
          rcases updateTab_mem_orig (hf date) t ht with h1 | h2
          · exact Or.inl h1
          · exact Or.inr h2
        · simp only [Option.isSome_none, Bool.false_eq_true, false_iff]
          rintro ⟨v, hv, _⟩
          exact absurd hv (by simp)
    | some fpv =>
      dsimp only at h
      split at h
      · exact absurd h (by simp)
      next s1 cb pt heq =>
        split at heq
        next hpos =>
          split at heq
          · exact absurd heq (by simp)
          next hover =>
            simp only [Except.ok.injEq, Prod.mk.injEq] at heq
            obtain ⟨hs1, hcb, hpt⟩ := heq
            subst hs1
            subst hcb
            subst hpt
            split at h
            · exact absurd h (by simp)
            next hclose =>
              simp only [Except.ok.injEq, Prod.mk.injEq] at h
              obtain ⟨h1, h2⟩ := h
              subst h1
              subst h2
              refine ⟨rfl, ?_, ?_⟩
              · intro t ht
                rcases updateTab_mem_orig (hf date) t ht with h1 | h2
                · exact Or.inl h1
                · exact Or.inr h2
              · simp only [Option.isSome_some, true_iff]
                exact ⟨fpv, rfl, hpos⟩
        next hpos =>
          simp only [Except.ok.injEq, Prod.mk.injEq] at heq
          obtain ⟨hs1, hcb, hpt⟩ := heq
          subst hs1
          subst hcb
          subst hpt
          split at h
          · exact absurd h (by simp)
          next hclose =>
            simp only [Except.ok.injEq, Prod.mk.injEq] at h
            obtain ⟨h1, h2⟩ := h
            subst h1
            subst h2
            refine ⟨by simp [updateTab, Option.toList], ?_, ?_⟩
            · intro t ht
              rcases updateTab_mem_orig (hf date) t ht with h1 | h2
              · exact Or.inl h1
              · exact Or.inr h2
            · simp only [Option.isSome_none, Bool.false_eq_true, false_iff]
              rintro ⟨v, hv, hvpos⟩
              simp only [Option.some.injEq] at hv
              subst hv
              exact absurd hvpos hpos

/-- Scenario: global price 0.003, one charge of 1 container, leaving an OPEN
tab with a sub-epsilon balance of 0.003. -/
def mpS0 : Store := initStore [demoCustomer] (some (3/1000))

def mpChargeInput : ChargeInput :=
  { customerId := "c1", containers := 1, transactionDate := 1, notes := none }

def mpS1 : Store := stateAfter (createCharge mpS0 mpChargeInput "u") mpS0

theorem mpS1_reachable : Reachable mpS1 :=
  Reachable.charge mpS0 mpChargeInput "u" (Reachable.init [demoCustomer] (some (3/1000)))

theorem mpS1_eval :
    mpS1.tabs.map (fun t => t.totalBalance) = [3/1000]
    ∧ mpS1.transactions.length = 1
    ∧ (markPaid mpS1 "c1" 7 "u" none).isOk = true
    ∧ (stateAfter (markPaid mpS1 "c1" 7 "u" none) mpS1).transactions = mpS1.transactions
    ∧ (stateAfter (markPaid mpS1 "c1" 7 "u" none) mpS1).tabs.map (fun t => t.totalBalance)
        = [0] := by
  refine ⟨?_, ?_, ?_, ?_, ?_⟩ <;>
    norm_num [mpS1, mpS0, mpChargeInput, demoCustomer, stateAfter, markPaid, createCharge,
      getUnitPrice, globalUnitPrice, findOrCreateOpenTab, findOpenTab, freshTab, withFreshTab,
      initStore, appendTransaction, updateTab, EPSILON, Except.isOk, Except.toBool]

/-! ### Claim C5 -/

/-- C5 as stated is refuted: on the reachable store `mpS1`, whose OPEN tab
holds the sub-epsilon balance 0.003, `markPaid` with no final payment
succeeds, appends no transaction, and still changes the tab's `totalBalance`
from 0.003 to 0 — a balance update without its transaction. -/
theorem C5_counterexample :
    Reachable mpS1
    ∧ (markPaid mpS1 "c1" 7 "u" none).isOk = true
    ∧ (stateAfter (markPaid mpS1 "c1" 7 "u" none) mpS1).transactions = mpS1.transactions
    ∧ mpS1.tabs.map (fun t => t.totalBalance) = [3/1000]
    ∧ (stateAfter (markPaid mpS1 "c1" 7 "u" none) mpS1).tabs.map (fun t => t.totalBalance)
        = [0] :=
  ⟨mpS1_reachable, mpS1_eval.2.2.1, mpS1_eval.2.2.2.1, mpS1_eval.1, mpS1_eval.2.2.2.2⟩

/-- C5 (amended): every invocation of the four operations that fails with an
error leaves the observed ledger state unchanged (the transactional
rollback), and every successful invocation appends exactly the transactions
it returns while touching no tab row other than the one it returns; the one
balance write without a transaction is markPaid's closure, which zeroes a
sub-epsilon residual (see the counterexample). -/
theorem C5_atomicity (s : Store) (userId : String) :
    (∀ (input : ChargeInput) (e : AppError), createCharge s input userId = .error e →
        stateAfter (createCharge s input userId) s = s)
    ∧ (∀ (input : ChargeInput) (s2 : Store) (r : OpResult),
        createCharge s input userId = .ok (s2, r) →
          s2.transactions = s.transactions ++ [r.transaction]
          ∧ ∀ t ∈ s2.tabs, t ∈ s.tabs ∨ t.id = r.tab.id)
    ∧ (∀ (input : PaymentInput) (e : AppError), createPayment s input userId = .error e →
        stateAfter (createPayment s input userId) s = s)
    ∧ (∀ (input : PaymentInput) (s2 : Store) (r : OpResult),
        createPayment s input userId = .ok (s2, r) →
          s2.transactions = s.transactions ++ [r.transaction]
          ∧ ∀ t ∈ s2.tabs, t ∈ s.tabs ∨ t.id = r.tab.id)
    ∧ (∀ (input : AdjustmentInput) (e : AppError), createAdjustment s input userId = .error e →
        stateAfter (createAdjustment s input userId) s = s)
    ∧ (∀ (input : AdjustmentInput) (s2 : Store) (r : OpResult),
        createAdjustment s input userId = .ok (s2, r) →
          s2.transactions = s.transactions ++ [r.transaction]
          ∧ ∀ t ∈ s2.tabs, t ∈ s.tabs ∨ t.id = r.tab.id)
    ∧ (∀ (cid : String) (date : Int) (fp : Option ℚ) (e : AppError),
        markPaid s cid date userId fp = .error e →
          stateAfter (markPaid s cid date userId fp) s = s)
    ∧ (∀ (cid : String) (date : Int) (fp : Option ℚ) (s2 : Store) (r : MarkPaidResult),
        markPaid s cid date userId fp = .ok (s2, r) →
          s2.transactions = s.transactions ++ r.transaction.toList
          ∧ ∀ t ∈ s2.tabs, t ∈ s.tabs ∨ t.id = r.tab.id) := by
  refine ⟨?_, ?_, ?_, ?_, ?_, ?_, ?_, ?_⟩
  · intro input e h
    simp [stateAfter, h]
  · intro input s2 r h
    exact createCharge_ok_shape h
  · intro input e h
    simp [stateAfter, h]
  · intro input s2 r h
    exact createPayment_ok_shape h
  · intro input e h
    simp [stateAfter, h]
  · intro input s2 r h
    exact createAdjustment_ok_shape h
  · intro cid date fp e h
    simp [stateAfter, h]
  · intro cid date fp s2 r h
    exact ⟨(markPaid_ok_shape h).1, (markPaid_ok_shape h).2.1⟩

theorem C5_witness :
    stateAfter (createCharge demoS0
        { customerId := "c1", containers := 0, transactionDate := 1, notes := none } "u")
      demoS0 = demoS0 := by
  refine (C5_atomicity demoS0 "u").1
    { customerId := "c1", containers := 0, transactionDate := 1, notes := none }
    (ValidationError "Containers must be greater than 0") ?_
  unfold createCharge
  rw [if_pos (by norm_num)]

/-! ### Claim C9 -/

/-- The transaction component of a markPaid result, or `none` when the call
failed: used to exhibit a successful call whose result has no transaction. -/
def markPaidresultTransaction :
    Except AppError (Store × MarkPaidResult) → Option (Option DebtTransaction)
  | .ok (_, r) => some r.transaction
  | .error _ => none

/-- C9 as stated is refuted: `markPaid` with no final payment on the
reachable store `mpS1` succeeds, yet its result carries no transaction —
the transaction component is not always present on success. -/
theorem C9_counterexample :
    Reachable mpS1
    ∧ markPaidresultTransaction (markPaid mpS1 "c1" 7 "u" none) = some none := by
  refine ⟨mpS1_reachable, ?_⟩
  norm_num [markPaidresultTransaction, mpS1, mpS0, mpChargeInput, demoCustomer, stateAfter,
    markPaid, createCharge, getUnitPrice, globalUnitPrice, findOrCreateOpenTab, findOpenTab,
    freshTab, withFreshTab, initStore, appendTransaction, updateTab, EPSILON]

/-- C9 (amended): Charge, Payment and Adjustment always return
`{ transaction, tab }` with the transaction present — it is exactly the
transaction appended to the ledger; MarkPaid returns a transaction exactly
when a strictly positive `finalPayment` was supplied, and only the updated
tab otherwise. -/
theorem C9_result_shape (s : Store) (userId : String) :
    (∀ (input : ChargeInput) (s2 : Store) (r : OpResult),
        createCharge s input userId = .ok (s2, r) →
          s2.transactions = s.transactions ++ [r.transaction])
    ∧ (∀ (input : PaymentInput) (s2 : Store) (r : OpResult),
        createPayment s input userId = .ok (s2, r) →
          s2.transactions = s.transactions ++ [r.transaction])
    ∧ (∀ (input : AdjustmentInput) (s2 : Store) (r : OpResult),
        createAdjustment s input userId = .ok (s2, r) →
          s2.transactions = s.transactions ++ [r.transaction])
    ∧ (∀ (cid : String) (date : Int) (fp : Option ℚ) (s2 : Store) (r : MarkPaidResult),
        markPaid s cid date userId fp = .ok (s2, r) →
          (r.transaction.isSome = true ↔ ∃ v, fp = some v ∧ 0 < v)) := by
  refine ⟨?_, ?_, ?_, ?_⟩
  · intro input s2 r h
    exact (createCharge_ok_shape h).1
  · intro input s2 r h
    exact (createPayment_ok_shape h).1
  · intro input s2 r h
    exact (createAdjustment_ok_shape h).1
  · intro cid date fp s2 r h
    exact (markPaid_ok_shape h).2.2

def demoS1Store : Store :=
  { customers := [demoCustomer], unitPriceSetting := some 23, tabs := [demoTab],
    transactions := [demoTrx], nextTabId := 1, nextTrxId := 1, seq := 2 }

theorem C9_witness :
    demoS1Store.transactions
      = demoS0.transactions ++ [(⟨demoTrx, demoTab⟩ : OpResult).transaction] := by
  refine (C9_result_shape demoS0 "u").1 demoChargeInput demoS1Store ⟨demoTrx, demoTab⟩ ?_
  norm_num [demoS1Store, demoS0, demoChargeInput, demoCustomer, demoTab, demoTrx,
    createCharge, getUnitPrice, globalUnitPrice, findOrCreateOpenTab, findOpenTab,
    freshTab, withFreshTab, initStore, appendTransaction, updateTab]

/-! ### Claim C10 -/

/-- History scenario: charge at date 5, partial payment at date 5, charge at
date 9, all on one tab; creation order gives `createdAt` 1, 2, 3. -/
def hS1 : Store :=
  stateAfter (createCharge demoS0
    { customerId := "c1", containers := 1, transactionDate := 5, notes := none } "u") demoS0

def hS2 : Store :=
  stateAfter (createPayment hS1
    { customerId := "c1", amount := 3, transactionDate := 5, notes := none } "u") hS1

def hS3 : Store :=
  stateAfter (createCharge hS2
    { customerId := "c1", containers := 1, transactionDate := 9, notes := none } "u") hS2

def hTrx0 : DebtTransaction :=
  { id := 0, debtTabId := 0, transactionType := .CHARGE, containers := some 1,
    unitPrice := some 23, amount := 23, balanceAfter := 23, notes := none,
    adjustmentReason := none, transactionDate := 5, enteredById := "u", createdAt := 1 }

def hTrx1 : DebtTransaction :=
  { id := 1, debtTabId := 0, transactionType := .PAYMENT, containers := none,
    unitPrice := none, amount := 3, balanceAfter := 20, notes := none,
    adjustmentReason := none, transactionDate := 5, enteredById := "u", createdAt := 2 }

def hTrx2 : DebtTransaction :=
  { id := 2, debtTabId := 0, transactionType := .CHARGE, containers := some 1,
    unitPrice := some 23, amount := 23, balanceAfter := 43, notes := none,
    adjustmentReason := none, transactionDate := 9, enteredById := "u", createdAt := 3 }

theorem hS3_history_eval : (getCustomerDebtHistory hS3 "c1").2 = [hTrx2, hTrx0, hTrx1] := by
  norm_num [getCustomerDebtHistory, hS3, hS2, hS1, demoS0, demoCustomer, stateAfter,
    createCharge, createPayment, getUnitPrice, globalUnitPrice, findOrCreateOpenTab,
    findOpenTab, freshTab, withFreshTab, initStore, appendTransaction, updateTab, EPSILON,
    List.mergeSort, hTrx0, hTrx1, hTrx2, abs]

/-- C10 as stated is refuted: the query sorts only by `transactionDate`
(descending) and requests no `createdAt` tiebreaker. In the scenario store the
result is [date 9 createdAt 3, date 5 createdAt 1, date 5 createdAt 2]: the
equal-date pair appears in ascending `createdAt` while the dates descend, so
the output is ordered by (transactionDate, createdAt) lexicographically in
neither direction. -/
theorem C10_counterexample :
    ¬ ((getCustomerDebtHistory hS3 "c1").2.Chain' (fun a b =>
        b.transactionDate < a.transactionDate ∨
          (b.transactionDate = a.transactionDate ∧ b.createdAt ≤ a.createdAt)))
    ∧ ¬ ((getCustomerDebtHistory hS3 "c1").2.Chain' (fun a b =>
        a.transactionDate < b.transactionDate ∨
          (a.transactionDate = b.transactionDate ∧ a.createdAt ≤ b.createdAt))) := by
  rw [hS3_history_eval]
  constructor
  · intro hchain
    rcases List.chain'_cons.mp (List.chain'_cons.mp hchain).2 with ⟨hrel, _⟩
    rcases hrel with h1 | h2
    · norm_num [hTrx0, hTrx1] at h1
    · norm_num [hTrx0, hTrx1] at h2
  · intro hchain
    rcases List.chain'_cons.mp hchain with ⟨hrel, _⟩
    rcases hrel with h1 | h2
    · norm_num [hTrx0, hTrx2] at h1
    · norm_num [hTrx0, hTrx2] at h2

/-- C10 (amended): the full debt history query returns exactly the union of
the transactions of all of the customer's tabs (open and closed), sorted by
`transactionDate` descending; the code requests no `createdAt` tiebreaker, so
transactions with equal dates keep their relative stored order. -/
theorem C10_history_contract (s : Store) (cid : String) :
    (getCustomerDebtHistory s cid).1.Perm (s.tabs.filter (fun t => t.customerId == cid))
    ∧ (getCustomerDebtHistory s cid).2.Perm
        (s.transactions.filter (fun t =>
          ((s.tabs.filter (fun tb => tb.customerId == cid)).map (fun tb => tb.id)).contains
            t.debtTabId))
    ∧ (getCustomerDebtHistory s cid).2.Chain'
        (fun a b => b.transactionDate ≤ a.transactionDate) := by
  unfold getCustomerDebtHistory
  dsimp only
  refine ⟨List.mergeSort_perm _ _, ?_, ?_⟩
  · refine (List.mergeSort_perm _ _).trans ?_
    have hids : (((s.tabs.filter (fun t => t.customerId == cid)).mergeSort
          (fun a b => decide (b.openedAt ≤ a.openedAt))).map (fun t => t.id)).Perm
        ((s.tabs.filter (fun tb => tb.customerId == cid)).map (fun tb => tb.id)) :=
      List.Perm.map _ (List.mergeSort_perm _ _)
    have hcongr : ∀ x ∈ s.transactions,
        ((((s.tabs.filter (fun t => t.customerId == cid)).mergeSort
            (fun a b => decide (b.openedAt ≤ a.openedAt))).map (fun t => t.id)).contains
          x.debtTabId)
        = (((s.tabs.filter (fun tb => tb.customerId == cid)).map
            (fun tb => tb.id)).contains x.debtTabId) := by
      intro x _
      simp only [List.contains, List.elem_eq_mem]
      exact decide_eq_decide.mpr hids.mem_iff
    rw [List.filter_congr hcongr]
  · have htrans : ∀ a b c : DebtTransaction,
        decide (b.transactionDate ≤ a.transactionDate) = true →
        decide (c.transactionDate ≤ b.transactionDate) = true →
        decide (c.transactionDate ≤ a.transactionDate) = true := by
      intro a b c h1 h2
      simp only [decide_eq_true_eq] at *
      exact le_trans h2 h1
    have htotal : ∀ a b : DebtTransaction,
        (decide (b.transactionDate ≤ a.transactionDate)
          || decide (a.transactionDate ≤ b.transactionDate)) = true := by
      intro a b
      simp only [Bool.or_eq_true, decide_eq_true_eq]
      exact le_total _ _
    have hp := List.sorted_mergeSort htrans htotal
      (s.transactions.filter (fun t =>
        (((s.tabs.filter (fun t => t.customerId == cid)).mergeSort
          (fun a b => decide (b.openedAt ≤ a.openedAt))).map (fun t => t.id)).contains
          t.debtTabId))
    refine List.Pairwise.chain' (hp.imp ?_)
    intro a b hab
    simpa using hab

end DebtLedger
